import Mathlib

/-!
Verification of the witness-wrapper action's two core components:

* the argument assembler (`assembleWitnessArgs`), which builds the argv
  passed to the external `witness` binary, and
* the binary resolver (`checkWitnessInPath`, `getLatestVersion`,
  `downloadWitnessVersion`, `getWitnessPath` from
  `src/core/witnessDownloader.js`), modelled as pure functions over an
  explicit environment of external-call outcomes, returning the result
  together with a trace of the external effects performed.

JavaScript string primitives used by the code (`trim`, `startsWith`,
`slice`, `endsWith`, substring search) are modelled over `String.data`
so that the kernel can evaluate them on concrete inputs.
-/

namespace WitnessWrapper

/-- Whitespace as trimmed by the JavaScript `String.prototype.trim` used
in `checkWitnessInPath` (restricted to the ASCII whitespace that can
occur in `which` output). -/
def isJsSpace (c : Char) : Bool :=
  c = ' ' || c = '\t' || c = '\n' || c = '\r'

/-- Model of JavaScript `s.trim()`. -/
def jsTrim (s : String) : String :=
  ⟨((s.data.dropWhile isJsSpace).reverse.dropWhile isJsSpace).reverse⟩

/-- Model of JavaScript `s.startsWith(pat)`. -/
def jsStartsWith (s pat : String) : Bool :=
  decide (s.data.take pat.data.length = pat.data)

/-- Model of JavaScript `s.slice(n)` for a nonnegative `n`. -/
def jsSlice (s : String) (n : Nat) : String :=
  ⟨s.data.drop n⟩

/-- Model of JavaScript `s.endsWith(pat)`. -/
def jsEndsWith (s pat : String) : Bool :=
  decide ((s.data.reverse.take pat.data.length).reverse = pat.data)

/-- Occurrence of `pat` as a contiguous run of characters of `s`
(model of JavaScript `s.includes(pat)`; used to state the URL claims). -/
def containsSeq (pat : List Char) : List Char → Bool
  | [] => pat.isEmpty
  | c :: rest =>
      decide ((c :: rest).take pat.length = pat) || containsSeq pat rest

/-- String form of `containsSeq`. -/
def containsStr (s pat : String) : Bool :=
  containsSeq pat.data s.data

/-- Model of Node's `path.join` for the simple two-component joins the
code performs (no separator normalization is needed on its inputs). -/
def pathJoin (a b : String) : String :=
  a ++ "/" ++ b

/-- Model of Node's `path.dirname` for slash-separated paths. -/
def dirname (p : String) : String :=
  match p.data.reverse.dropWhile (fun c => c ≠ '/') with
  | [] => "."
  | _ :: rest => ⟨rest.reverse⟩

/-! ## ArgumentAssembler -/

/-- Modelled from the spec: the source file
`src/attestation/assembleWitnessArgs.js` is not part of the source tree
(only its tests are), so `WitnessOptions` follows §3 of the spec: every
optional string field is tri-state (absent = `none`, empty = `some ""`,
set = `some s`), `attestations` is an ordered sequence, the boolean
enable flags default to off, and the remaining fields are the passthrough
extension fields (server URLs, OIDC issuer, timestamp servers). -/
structure WitnessOptions where
  step : Option String := none
  attestations : List String := []
  outfile : Option String := none
  key : Option String := none
  enableArchivista : Bool := false
  enableSigstore : Bool := false
  archivistaServer : Option String := none
  fulcioUrl : Option String := none
  fulcioOidcIssuer : Option String := none
  timestampServers : Option String := none

/-- Modelled from the spec: a flag token `<flagEq><value>` is emitted iff
the optional field is present and non-empty (§3 invariant, §4.1 items
2, 4, 5, 6). `flagEq` is the flag name including its `=`. -/
def optFlag (flagEq : String) : Option String → List String
  | none => []
  | some s => if s = "" then [] else [flagEq ++ s]

/-- Modelled from the spec: items 1–6 of the §4.1 output structure, in
the fixed order — the literal `run`, the step flag, one `-a=` token per
attestation in sequence order, the outfile flag, the key flag, then the
boolean and passthrough extension flags. -/
def optionTokens (o : WitnessOptions) : List String :=
  ["run"]
    ++ optFlag "-s=" o.step
    ++ o.attestations.map (fun a => "-a=" ++ a)
    ++ optFlag "-o=" o.outfile
    ++ optFlag "--signer-file-key-path=" o.key
    ++ (if o.enableArchivista then ["--enable-archivista=true"] else [])
    ++ (if o.enableSigstore then ["--enable-sigstore=true"] else [])
    ++ optFlag "--archivista-server=" o.archivistaServer
    ++ optFlag "--signer-fulcio-url=" o.fulcioUrl
    ++ optFlag "--signer-fulcio-oidc-issuer=" o.fulcioOidcIssuer
    ++ optFlag "--timestamp-servers=" o.timestampServers

/-- Modelled from the spec: the trailing command vector is passed through
element-wise, with `null`/`undefined` elements (`none`) replaced by the
empty string and nothing dropped (§3 CommandVector, §4.1 item 8). -/
def normalizeCmd (cmd : List (Option String)) : List String :=
  cmd.map (fun x => x.getD "")

/-- Modelled from the spec: §4.1 full output — option tokens, then the
separator `--` exactly once, then the normalized payload. -/
def assembleWitnessArgs (o : WitnessOptions) (cmd : List (Option String)) :
    List String :=
  optionTokens o ++ ["--"] ++ normalizeCmd cmd

/-- Whether `e` matches the flag pattern `flagEq` (i.e. starts with the
flag name and its `=`). -/
def hasFlag (flagEq e : String) : Bool :=
  decide (e.data.take flagEq.data.length = flagEq.data)

/-! ## BinaryResolver

Embedding of `src/core/witnessDownloader.js`. Each external call (the
`which` probe, the GitHub release-metadata fetch, `tc.downloadTool`,
`tc.extractTar`, `fs.chmodSync`, `tc.cacheFile`, `fs.promises.rm`) is
given its outcome by an environment record, and each function returns
its value together with the ordered trace of external effects it
performed. -/

/-- Result of `exec.getExecOutput` when the call itself does not throw. -/
structure ExecResult where
  exitCode : Int
  stdout : String
  stderr : String
deriving DecidableEq

/-- Outcome of the `exec.getExecOutput('which', ['witness'], ...)` call:
either a result object or a thrown error. -/
inductive WhichOutcome where
  | ok (r : ExecResult)
  | err (msg : String)
deriving DecidableEq

/-- `checkWitnessInPath` (witnessDownloader.js lines 21–36): returns the
trimmed stdout when the exit code is 0 and the trimmed output is truthy,
and `none` (JS `null`) otherwise; a thrown error is caught and also
yields `none`. -/
def checkWitnessInPath : WhichOutcome → Option String
  | .err _ => none
  | .ok r =>
      if r.exitCode = 0 ∧ jsTrim r.stdout ≠ "" then some (jsTrim r.stdout)
      else none

/-- Outcome of the `fetch` of the GitHub latest-release metadata: a
thrown network error, or a response with its `ok` flag, status, and the
`tag_name` field of its JSON body. -/
inductive FetchOutcome where
  | netError (msg : String)
  | response (ok : Bool) (status : Nat) (tagName : String)
deriving DecidableEq

/-- The hardcoded known-recent fallback of `getLatestVersion`
(witnessDownloader.js line 56). -/
def fallbackVersion : String := "0.10.1"

/-- `getLatestVersion` (witnessDownloader.js lines 42–58): on a
successful response, the tag name with a leading `v` removed; a non-ok
response throws inside the `try`, and any thrown error is caught and
answered by the fallback version. -/
def getLatestVersion : FetchOutcome → String
  | .netError _ => fallbackVersion
  | .response ok _ tag =>
      if ok then (if jsStartsWith tag "v" then jsSlice tag 1 else tag)
      else fallbackVersion

/-- `process.platform` as discriminated by `downloadWitnessVersion`
(win32, darwin, anything else). -/
inductive Platform where
  | win32
  | darwin
  | linux
deriving DecidableEq

/-- The OS-specific archive file name (witnessDownloader.js lines 66–74). -/
def archiveFile (p : Platform) (version : String) : String :=
  match p with
  | .win32 => "witness_" ++ version ++ "_windows_amd64.tar.gz"
  | .darwin => "witness_" ++ version ++ "_darwin_amd64.tar.gz"
  | .linux => "witness_" ++ version ++ "_linux_amd64.tar.gz"

/-- The download URL (witnessDownloader.js line 76). -/
def downloadUrlFor (p : Platform) (version : String) : String :=
  "https://github.com/in-toto/witness/releases/download/v" ++ version
    ++ "/" ++ archiveFile p version

/-- External effects performed by the resolver, in order. -/
inductive Event where
  | execWhich
  | fetchLatest
  | cacheFind (tool version : String)
  | download (url : String)
  | mkdirTemp (dir : String)
  | extract (archive dir : String)
  | chmod (path : String)
  | cacheInstall (src file tool version : String)
  | addPath (dir : String)
  | rmTemp (dir : String)
  | warn (msg : String)
deriving DecidableEq

deriving instance DecidableEq for Except

/-- Outcomes of the external calls made by `downloadWitnessVersion`. -/
structure DownloadEnv where
  platform : Platform
  tempSuffix : String
  downloadResult : Except String String
  extractResult : Except String String
  chmodResult : Except String Unit
  cacheResult : Except String String
  rmResult : Except String Unit
deriving DecidableEq

/-- `os.tmpdir()`. -/
def tmpRoot : String := "/tmp"

/-- The temporary extraction directory created by `downloadWitnessVersion`
(witnessDownloader.js line 89). -/
def tempDirOf (env : DownloadEnv) : String :=
  pathJoin tmpRoot ("witness-extract-" ++ env.tempSuffix)

/-- `downloadWitnessVersion` (witnessDownloader.js lines 65–134):
download the archive, create a temp directory, extract, chmod the binary
(warning only on failure), install into the tool cache, add the cache
directory to PATH, then remove the temp directory (warning only on
failure). A download, extraction, or cache failure is rethrown with a
stage-specific message; note the temp-directory removal sits after the
cache step on the straight-line path, not in a `finally`. -/
def downloadWitnessVersion (env : DownloadEnv) (version : String) :
    Except String String × List Event :=
  let url := downloadUrlFor env.platform version
  match env.downloadResult with
  | .error msg => (.error ("Failed to download witness: " ++ msg), [.download url])
  | .ok downloadPath =>
      let tempDir := tempDirOf env
      let ev0 : List Event := [.download url, .mkdirTemp tempDir, .extract downloadPath tempDir]
      match env.extractResult with
      | .error msg => (.error ("Failed to extract witness archive: " ++ msg), ev0)
      | .ok extractedDir =>
          let witnessExePath := pathJoin extractedDir "witness"
          let chmodEvs : List Event :=
            .chmod witnessExePath ::
              (match env.chmodResult with
               | .ok _ => []
               | .error m => [.warn ("Failed to make witness executable: " ++ m)])
          match env.cacheResult with
          | .error msg =>
              (.error ("Failed to cache witness: " ++ msg),
               ev0 ++ chmodEvs
                 ++ [.cacheInstall witnessExePath "witness" "witness" version])
          | .ok cachedPath =>
              let rmEvs : List Event :=
                .rmTemp tempDir ::
                  (match env.rmResult with
                   | .ok _ => []
                   | .error m => [.warn ("Failed to clean up temporary directory: " ++ m)])
              let result :=
                if jsEndsWith cachedPath "witness" then cachedPath
                else pathJoin cachedPath "witness"
              (.ok result,
               ev0 ++ chmodEvs
                 ++ [.cacheInstall witnessExePath "witness" "witness" version,
                     .addPath (dirname cachedPath)]
                 ++ rmEvs)

/-- Environment of a full `getWitnessPath` invocation: the `which`
outcome, the `witness_version` action input (`""` when unset), the
metadata-fetch outcome, the tool-cache lookup (`tc.find`, `""` on miss),
and the download-stage outcomes. -/
structure ResolverEnv where
  which : WhichOutcome
  inputVersion : String
  fetch : FetchOutcome
  cacheFind : String → String
  dl : DownloadEnv

/-- The version `getWitnessPath` uses after a PATH miss
(witnessDownloader.js line 150): the input version if truthy, else the
latest-version fetch result. -/
def resolvedVersion (env : ResolverEnv) : String :=
  if env.inputVersion = "" then getLatestVersion env.fetch else env.inputVersion

/-- `getWitnessPath` (witnessDownloader.js lines 140–165): PATH probe
first; on a miss, resolve the version (fetching the latest only when no
input version is given), then the tool cache, then download. -/
def getWitnessPath (env : ResolverEnv) : Except String String × List Event :=
  match checkWitnessInPath env.which with
  | some p => (.ok p, [.execWhich])
  | none =>
      let fetchEvs : List Event :=
        if env.inputVersion = "" then [.fetchLatest] else []
      let version := resolvedVersion env
      let cachedPath := env.cacheFind version
      if cachedPath ≠ "" then
        (.ok (pathJoin cachedPath "witness"),
         .execWhich :: fetchEvs ++ [.cacheFind "witness" version, .addPath cachedPath])
      else
        let dl := downloadWitnessVersion env.dl version
        (dl.1, .execWhich :: fetchEvs ++ [.cacheFind "witness" version] ++ dl.2)

/-! ## Helper lemmas: token disjointness -/

/-- Two appended strings differ whenever their left parts disagree within
the first `min` characters. -/
theorem append_ne_append (p q : String)
    (hmk : p.data.take (min p.data.length q.data.length)
         ≠ q.data.take (min p.data.length q.data.length))
    (r t : String) : p ++ r ≠ q ++ t := by
  intro h
  apply hmk
  have hd := congrArg String.data h
  rw [String.data_append, String.data_append] at hd
  have h1 : (p.data ++ r.data).take (min p.data.length q.data.length)
      = p.data.take (min p.data.length q.data.length) :=
    List.take_append_of_le_length (Nat.min_le_left _ _)
  have h2 : (q.data ++ t.data).take (min p.data.length q.data.length)
      = q.data.take (min p.data.length q.data.length) :=
    List.take_append_of_le_length (Nat.min_le_right _ _)
  rw [← h1, ← h2, hd]

/-- An appended string differs from a literal whenever its left part
disagrees with the literal within the first `min` characters. -/
theorem append_ne_lit (p l : String)
    (hmk : p.data.take (min p.data.length l.data.length)
         ≠ l.data.take (min p.data.length l.data.length))
    (r : String) : p ++ r ≠ l := by
  intro h
  apply hmk
  have hd := congrArg String.data h
  rw [String.data_append] at hd
  have h1 : (p.data ++ r.data).take (min p.data.length l.data.length)
      = p.data.take (min p.data.length l.data.length) :=
    List.take_append_of_le_length (Nat.min_le_left _ _)
  rw [← h1, hd]

/-- No string of the form `p ++ r` with `p` longer than two characters is
the separator token. -/
theorem append_ne_sep (p r : String) (hp : 2 < p.length) : p ++ r ≠ "--" := by
  intro h
  have hd := congrArg String.length h
  rw [String.length_append] at hd
  have h2 : ("--" : String).length = 2 := by decide
  omega

/-- `hasFlag` is false on `g ++ r` whenever the pattern disagrees with
`g` within the first `min` characters. -/
theorem hasFlag_false_append (pat g : String)
    (hmk : pat.data.take (min pat.data.length g.data.length)
         ≠ g.data.take (min pat.data.length g.data.length))
    (r : String) : hasFlag pat (g ++ r) = false := by
  apply decide_eq_false
  intro he
  apply hmk
  have hk1 : min pat.data.length g.data.length ≤ pat.data.length :=
    Nat.min_le_left _ _
  have hk2 : min pat.data.length g.data.length ≤ g.data.length :=
    Nat.min_le_right _ _
  calc List.take (min pat.data.length g.data.length) pat.data
      = List.take (min pat.data.length g.data.length)
          (List.take pat.data.length (g ++ r).data) := by rw [he]
    _ = List.take (min (min pat.data.length g.data.length) pat.data.length)
          ((g ++ r).data) := List.take_take _ _ _
    _ = List.take (min pat.data.length g.data.length) ((g ++ r).data) := by
          rw [Nat.min_eq_left hk1]
    _ = List.take (min pat.data.length g.data.length) g.data := by
          rw [String.data_append]
          exact List.take_append_of_le_length hk2

/-- `hasFlag` on a token produced with the same pattern is true. -/
theorem hasFlag_self (pat r : String) : hasFlag pat (pat ++ r) = true := by
  apply decide_eq_true
  rw [String.data_append, List.take_append_of_le_length (Nat.le_refl _),
    List.take_length]

/-- Inversion for membership in `optFlag`. -/
theorem mem_optFlag {flagEq : String} {v : Option String} {tok : String}
    (h : tok ∈ optFlag flagEq v) :
    ∃ s, v = some s ∧ s ≠ "" ∧ tok = flagEq ++ s := by
  match v with
  | none => simp [optFlag] at h
  | some s =>
      by_cases hs : s = "" <;> simp [optFlag, hs] at h
      exact ⟨s, rfl, hs, h⟩

/-- Inversion for membership in the option-token region: every token is
one of the eleven §4.1 token shapes. -/
theorem mem_optionTokens_cases {o : WitnessOptions} {tok : String}
    (h : tok ∈ optionTokens o) :
    tok = "run"
    ∨ (∃ s, o.step = some s ∧ s ≠ "" ∧ tok = "-s=" ++ s)
    ∨ (∃ a, a ∈ o.attestations ∧ tok = "-a=" ++ a)
    ∨ (∃ s, o.outfile = some s ∧ s ≠ "" ∧ tok = "-o=" ++ s)
    ∨ (∃ s, o.key = some s ∧ s ≠ "" ∧ tok = "--signer-file-key-path=" ++ s)
    ∨ (o.enableArchivista = true ∧ tok = "--enable-archivista=true")
    ∨ (o.enableSigstore = true ∧ tok = "--enable-sigstore=true")
    ∨ (∃ s, o.archivistaServer = some s ∧ s ≠ "" ∧ tok = "--archivista-server=" ++ s)
    ∨ (∃ s, o.fulcioUrl = some s ∧ s ≠ "" ∧ tok = "--signer-fulcio-url=" ++ s)
    ∨ (∃ s, o.fulcioOidcIssuer = some s ∧ s ≠ "" ∧ tok = "--signer-fulcio-oidc-issuer=" ++ s)
    ∨ (∃ s, o.timestampServers = some s ∧ s ≠ "" ∧ tok = "--timestamp-servers=" ++ s) := by
  unfold optionTokens at h
  simp only [List.append_assoc, List.mem_append, List.mem_singleton,
    List.mem_map] at h
  rcases h with h | h | h | h | h | h | h | h | h | h | h
  · exact Or.inl h
  · rcases mem_optFlag h with ⟨s, hv, hs, ht⟩
    exact Or.inr (Or.inl ⟨s, hv, hs, ht⟩)
  · rcases h with ⟨a, ha, ht⟩
    exact Or.inr (Or.inr (Or.inl ⟨a, ha, ht.symm⟩))
  · rcases mem_optFlag h with ⟨s, hv, hs, ht⟩
    exact Or.inr (Or.inr (Or.inr (Or.inl ⟨s, hv, hs, ht⟩)))
  · rcases mem_optFlag h with ⟨s, hv, hs, ht⟩
    exact Or.inr (Or.inr (Or.inr (Or.inr (Or.inl ⟨s, hv, hs, ht⟩))))
  · by_cases hb : o.enableArchivista <;> simp [hb] at h
    exact Or.inr (Or.inr (Or.inr (Or.inr (Or.inr (Or.inl ⟨hb, h⟩)))))
  · by_cases hb : o.enableSigstore <;> simp [hb] at h
    exact Or.inr (Or.inr (Or.inr (Or.inr (Or.inr (Or.inr (Or.inl ⟨hb, h⟩))))))
  · rcases mem_optFlag h with ⟨s, hv, hs, ht⟩
    exact Or.inr (Or.inr (Or.inr (Or.inr (Or.inr (Or.inr (Or.inr (Or.inl ⟨s, hv, hs, ht⟩)))))))
  · rcases mem_optFlag h with ⟨s, hv, hs, ht⟩
    exact Or.inr (Or.inr (Or.inr (Or.inr (Or.inr (Or.inr (Or.inr (Or.inr (Or.inl ⟨s, hv, hs, ht⟩))))))))
  · rcases mem_optFlag h with ⟨s, hv, hs, ht⟩
    exact Or.inr (Or.inr (Or.inr (Or.inr (Or.inr (Or.inr (Or.inr (Or.inr (Or.inr (Or.inl ⟨s, hv, hs, ht⟩)))))))))
  · rcases mem_optFlag h with ⟨s, hv, hs, ht⟩
    exact Or.inr (Or.inr (Or.inr (Or.inr (Or.inr (Or.inr (Or.inr (Or.inr (Or.inr (Or.inr ⟨s, hv, hs, ht⟩)))))))))

/-- The separator token is never among the option tokens. -/
theorem sep_not_mem_optionTokens (o : WitnessOptions) : "--" ∉ optionTokens o := by
  intro h
  rcases mem_optionTokens_cases h with h | ⟨s, _, _, h⟩ | ⟨a, _, h⟩ | ⟨s, _, _, h⟩
    | ⟨s, _, _, h⟩ | ⟨_, h⟩ | ⟨_, h⟩ | ⟨s, _, _, h⟩ | ⟨s, _, _, h⟩ | ⟨s, _, _, h⟩
    | ⟨s, _, _, h⟩
  · exact absurd h (by decide)
  all_goals first
    | exact absurd h.symm (by decide)
    | exact append_ne_sep _ _ (by decide) h.symm

/-- The assembled output in cons form. -/
theorem assemble_eq_cons (o : WitnessOptions) (cmd : List (Option String)) :
    assembleWitnessArgs o cmd = optionTokens o ++ ("--" :: normalizeCmd cmd) := by
  simp [assembleWitnessArgs, List.append_assoc]

/-- The first occurrence of the separator token in the output is the one
the assembler emits, at the index just past the option tokens. -/
theorem sep_indexOf (o : WitnessOptions) (cmd : List (Option String)) :
    (assembleWitnessArgs o cmd).indexOf "--" = (optionTokens o).length := by
  rw [assemble_eq_cons,
    List.indexOf_append_of_not_mem (sep_not_mem_optionTokens o)]
  simp

/-- The region before the first separator occurrence is exactly the
option-token region. -/
theorem sep_region (o : WitnessOptions) (cmd : List (Option String)) :
    (assembleWitnessArgs o cmd).take ((assembleWitnessArgs o cmd).indexOf "--")
      = optionTokens o := by
  rw [sep_indexOf, assemble_eq_cons, List.take_left]

/-- The region after the first separator occurrence is exactly the
normalized payload. -/
theorem sep_suffix (o : WitnessOptions) (cmd : List (Option String)) :
    (assembleWitnessArgs o cmd).drop ((assembleWitnessArgs o cmd).indexOf "--" + 1)
      = normalizeCmd cmd := by
  rw [sep_indexOf]
  have h : (optionTokens o).length + 1 = (optionTokens o ++ ["--"]).length := by
    simp
  rw [h]
  exact List.drop_left _ _

/-- C1: for every options object and every trailing command vector `C`
(nulls included), the output's suffix starting just after the separator
token equals `C` element-wise, with `none` elements replaced by the
empty string and every other element unchanged, and has the same length
as `C`: no element is dropped, split, or re-tokenized. -/
theorem assembleWitnessArgs_payload_passthrough
    (o : WitnessOptions) (cmd : List (Option String)) :
    (assembleWitnessArgs o cmd).drop
        ((assembleWitnessArgs o cmd).indexOf "--" + 1)
      = cmd.map (fun x => x.getD "")
    ∧ ((assembleWitnessArgs o cmd).drop
        ((assembleWitnessArgs o cmd).indexOf "--" + 1)).length
      = cmd.length := by
  refine ⟨sep_suffix o cmd, ?_⟩
  rw [sep_suffix o cmd]
  exact List.length_map _ _

/-- The §8 end-to-end example options. -/
def exOpts : WitnessOptions :=
  { step := some "build", outfile := some "attestation.json" }

/-- The §8 end-to-end example trailing command. -/
def exCmd : List (Option String) :=
  [some "/bin/sh", some "-c", some "make build docker_tag=v1.2.3"]

/-- C2 counterexample: with a payload that itself contains the string
`--`, the separator token does not appear exactly once in the output —
the assembler emits one separator, and the payload occurrence is a
second element equal to it. -/
theorem assembleWitnessArgs_sep_count_cex :
    ¬ ((assembleWitnessArgs {} [some "--"]).count "--" = 1) := by decide

/-- C2 (amended): the output is in fixed order — the literal `run`
first, then the option tokens, then the separator emitted exactly once
outside the payload (no option token equals `--`, so the output's count
of `--` is one plus its count inside the normalized payload), followed
immediately by the payload; and on the §8 example the first element is
`run`, the output contains `-s=build` and `-o=attestation.json`, and the
tail after the separator is exactly the trailing command. -/
theorem assembleWitnessArgs_structure :
    (∀ (o : WitnessOptions) (cmd : List (Option String)),
      (assembleWitnessArgs o cmd).head? = some "run"
      ∧ assembleWitnessArgs o cmd
          = optionTokens o ++ ["--"] ++ normalizeCmd cmd
      ∧ "--" ∉ optionTokens o
      ∧ (assembleWitnessArgs o cmd).count "--"
          = 1 + (normalizeCmd cmd).count "--"
      ∧ (assembleWitnessArgs o cmd).drop
          ((assembleWitnessArgs o cmd).indexOf "--" + 1) = normalizeCmd cmd)
    ∧ (assembleWitnessArgs exOpts exCmd).head? = some "run"
    ∧ "-s=build" ∈ assembleWitnessArgs exOpts exCmd
    ∧ "-o=attestation.json" ∈ assembleWitnessArgs exOpts exCmd
    ∧ (assembleWitnessArgs exOpts exCmd).drop
        ((assembleWitnessArgs exOpts exCmd).indexOf "--" + 1)
        = ["/bin/sh", "-c", "make build docker_tag=v1.2.3"] := by
  refine ⟨fun o cmd => ⟨?_, rfl, sep_not_mem_optionTokens o, ?_, sep_suffix o cmd⟩,
    by decide, by decide, by decide, by decide⟩
  · rw [assemble_eq_cons]
    cases h : optionTokens o with
    | nil => exact absurd (congrArg List.head? h) (by simp [optionTokens])
    | cons a rest =>
        have : a = "run" := by
          have := congrArg List.head? h
          simpa [optionTokens] using this.symm
        simp [this]
  · rw [assemble_eq_cons, List.count_append,
      List.count_eq_zero.mpr (sep_not_mem_optionTokens o)]
    simp [List.count_cons]
    omega

/-- An empty/absent step field leaves no step-flag token in the option
region. -/
theorem region_no_step (o : WitnessOptions) (h : o.step = none ∨ o.step = some "") :
    ∀ e ∈ optionTokens o, hasFlag "-s=" e = false := by
  have hcontra : ∀ s : String, o.step = some s → s ≠ "" → False := by
    intro s hv hs
    rcases h with h | h <;> rw [h] at hv
    · cases hv
    · injection hv with h2; exact hs h2.symm
  intro e he
  rcases mem_optionTokens_cases he with rfl | ⟨s, hv, hs, rfl⟩ | ⟨a, _, rfl⟩
    | ⟨s, hv, hs, rfl⟩ | ⟨s, hv, hs, rfl⟩ | ⟨_, rfl⟩ | ⟨_, rfl⟩ | ⟨s, hv, hs, rfl⟩
    | ⟨s, hv, hs, rfl⟩ | ⟨s, hv, hs, rfl⟩ | ⟨s, hv, hs, rfl⟩
  all_goals first
    | decide
    | exact hasFlag_false_append _ _ (by decide) _
    | exact (hcontra _ hv hs).elim

/-- An empty/absent outfile field leaves no outfile-flag token in the
option region. -/
theorem region_no_outfile (o : WitnessOptions)
    (h : o.outfile = none ∨ o.outfile = some "") :
    ∀ e ∈ optionTokens o, hasFlag "-o=" e = false := by
  have hcontra : ∀ s : String, o.outfile = some s → s ≠ "" → False := by
    intro s hv hs
    rcases h with h | h <;> rw [h] at hv
    · cases hv
    · injection hv with h2; exact hs h2.symm
  intro e he
  rcases mem_optionTokens_cases he with rfl | ⟨s, hv, hs, rfl⟩ | ⟨a, _, rfl⟩
    | ⟨s, hv, hs, rfl⟩ | ⟨s, hv, hs, rfl⟩ | ⟨_, rfl⟩ | ⟨_, rfl⟩ | ⟨s, hv, hs, rfl⟩
    | ⟨s, hv, hs, rfl⟩ | ⟨s, hv, hs, rfl⟩ | ⟨s, hv, hs, rfl⟩
  all_goals first
    | decide
    | exact hasFlag_false_append _ _ (by decide) _
    | exact (hcontra _ hv hs).elim

/-- An empty/absent key field leaves no key-flag token in the option
region. -/
theorem region_no_key (o : WitnessOptions)
    (h : o.key = none ∨ o.key = some "") :
    ∀ e ∈ optionTokens o, hasFlag "--signer-file-key-path=" e = false := by
  have hcontra : ∀ s : String, o.key = some s → s ≠ "" → False := by
    intro s hv hs
    rcases h with h | h <;> rw [h] at hv
    · cases hv
    · injection hv with h2; exact hs h2.symm
  intro e he
  rcases mem_optionTokens_cases he with rfl | ⟨s, hv, hs, rfl⟩ | ⟨a, _, rfl⟩
    | ⟨s, hv, hs, rfl⟩ | ⟨s, hv, hs, rfl⟩ | ⟨_, rfl⟩ | ⟨_, rfl⟩ | ⟨s, hv, hs, rfl⟩
    | ⟨s, hv, hs, rfl⟩ | ⟨s, hv, hs, rfl⟩ | ⟨s, hv, hs, rfl⟩
  all_goals first
    | decide
    | exact hasFlag_false_append _ _ (by decide) _
    | exact (hcontra _ hv hs).elim

/-- An empty/absent archivista-server extension field leaves no matching
token in the option region. -/
theorem region_no_archivista_server (o : WitnessOptions)
    (h : o.archivistaServer = none ∨ o.archivistaServer = some "") :
    ∀ e ∈ optionTokens o, hasFlag "--archivista-server=" e = false := by
  have hcontra : ∀ s : String, o.archivistaServer = some s → s ≠ "" → False := by
    intro s hv hs
    rcases h with h | h <;> rw [h] at hv
    · cases hv
    · injection hv with h2; exact hs h2.symm
  intro e he
  rcases mem_optionTokens_cases he with rfl | ⟨s, hv, hs, rfl⟩ | ⟨a, _, rfl⟩
    | ⟨s, hv, hs, rfl⟩ | ⟨s, hv, hs, rfl⟩ | ⟨_, rfl⟩ | ⟨_, rfl⟩ | ⟨s, hv, hs, rfl⟩
    | ⟨s, hv, hs, rfl⟩ | ⟨s, hv, hs, rfl⟩ | ⟨s, hv, hs, rfl⟩
  all_goals first
    | decide
    | exact hasFlag_false_append _ _ (by decide) _
    | exact (hcontra _ hv hs).elim

/-- An empty/absent fulcio-url extension field leaves no matching token
in the option region. -/
theorem region_no_fulcio_url (o : WitnessOptions)
    (h : o.fulcioUrl = none ∨ o.fulcioUrl = some "") :
    ∀ e ∈ optionTokens o, hasFlag "--signer-fulcio-url=" e = false := by
  have hcontra : ∀ s : String, o.fulcioUrl = some s → s ≠ "" → False := by
    intro s hv hs
    rcases h with h | h <;> rw [h] at hv
    · cases hv
    · injection hv with h2; exact hs h2.symm
  intro e he
  rcases mem_optionTokens_cases he with rfl | ⟨s, hv, hs, rfl⟩ | ⟨a, _, rfl⟩
    | ⟨s, hv, hs, rfl⟩ | ⟨s, hv, hs, rfl⟩ | ⟨_, rfl⟩ | ⟨_, rfl⟩ | ⟨s, hv, hs, rfl⟩
    | ⟨s, hv, hs, rfl⟩ | ⟨s, hv, hs, rfl⟩ | ⟨s, hv, hs, rfl⟩
  all_goals first
    | decide
    | exact hasFlag_false_append _ _ (by decide) _
    | exact (hcontra _ hv hs).elim

/-- An empty/absent fulcio-oidc-issuer extension field leaves no matching
token in the option region. -/
theorem region_no_fulcio_oidc (o : WitnessOptions)
    (h : o.fulcioOidcIssuer = none ∨ o.fulcioOidcIssuer = some "") :
    ∀ e ∈ optionTokens o, hasFlag "--signer-fulcio-oidc-issuer=" e = false := by
  have hcontra : ∀ s : String, o.fulcioOidcIssuer = some s → s ≠ "" → False := by
    intro s hv hs
    rcases h with h | h <;> rw [h] at hv
    · cases hv
    · injection hv with h2; exact hs h2.symm
  intro e he
  rcases mem_optionTokens_cases he with rfl | ⟨s, hv, hs, rfl⟩ | ⟨a, _, rfl⟩
    | ⟨s, hv, hs, rfl⟩ | ⟨s, hv, hs, rfl⟩ | ⟨_, rfl⟩ | ⟨_, rfl⟩ | ⟨s, hv, hs, rfl⟩
    | ⟨s, hv, hs, rfl⟩ | ⟨s, hv, hs, rfl⟩ | ⟨s, hv, hs, rfl⟩
  all_goals first
    | decide
    | exact hasFlag_false_append _ _ (by decide) _
    | exact (hcontra _ hv hs).elim

/-- An empty/absent timestamp-servers extension field leaves no matching
token in the option region. -/
theorem region_no_timestamp (o : WitnessOptions)
    (h : o.timestampServers = none ∨ o.timestampServers = some "") :
    ∀ e ∈ optionTokens o, hasFlag "--timestamp-servers=" e = false := by
  have hcontra : ∀ s : String, o.timestampServers = some s → s ≠ "" → False := by
    intro s hv hs
    rcases h with h | h <;> rw [h] at hv
    · cases hv
    · injection hv with h2; exact hs h2.symm
  intro e he
  rcases mem_optionTokens_cases he with rfl | ⟨s, hv, hs, rfl⟩ | ⟨a, _, rfl⟩
    | ⟨s, hv, hs, rfl⟩ | ⟨s, hv, hs, rfl⟩ | ⟨_, rfl⟩ | ⟨_, rfl⟩ | ⟨s, hv, hs, rfl⟩
    | ⟨s, hv, hs, rfl⟩ | ⟨s, hv, hs, rfl⟩ | ⟨s, hv, hs, rfl⟩
  all_goals first
    | decide
    | exact hasFlag_false_append _ _ (by decide) _
    | exact (hcontra _ hv hs).elim

/-- A flag list built with a different flag name contributes no
occurrence of a given flag token. -/
theorem count_optFlag_ne (p q : String)
    (hmk : p.data.take (min p.data.length q.data.length)
         ≠ q.data.take (min p.data.length q.data.length))
    (s : String) (v : Option String) :
    (optFlag q v).count (p ++ s) = 0 :=
  List.count_eq_zero.mpr fun hmem => by
    rcases mem_optFlag hmem with ⟨t, _, _, ht⟩
    exact append_ne_append p q hmk s t ht

/-- A conditional singleton of a different literal contributes no
occurrence of a given token. -/
theorem count_ite_ne (c : Prop) [Decidable c] (lit t : String) (hne : t ≠ lit) :
    (if c then [lit] else ([] : List String)).count t = 0 := by
  split
  · exact List.count_eq_zero.mpr (by simp [hne])
  · simp

/-- When the step field holds the non-empty value `s`, the option region
holds the step token exactly once. -/
theorem optionTokens_step_count (o : WitnessOptions) (s : String)
    (hv : o.step = some s) (hs : s ≠ "") :
    (optionTokens o).count ("-s=" ++ s) = 1 := by
  unfold optionTokens
  rw [hv]
  simp only [List.count_append]
  have h1 : (["run"] : List String).count ("-s=" ++ s) = 0 :=
    List.count_eq_zero.mpr
      (by simp only [List.mem_singleton]
          exact append_ne_lit "-s=" "run" (by decide) s)
  have h2 : (optFlag "-s=" (some s)).count ("-s=" ++ s) = 1 := by
    simp [optFlag, hs]
  have h3 : (o.attestations.map (fun a => "-a=" ++ a)).count ("-s=" ++ s) = 0 :=
    List.count_eq_zero.mpr
      (by intro hmem
          rcases List.mem_map.mp hmem with ⟨a, _, ha⟩
          exact append_ne_append "-a=" "-s=" (by decide) a s ha)
  have h4 := count_optFlag_ne "-s=" "-o=" (by decide) s o.outfile
  have h5 := count_optFlag_ne "-s=" "--signer-file-key-path=" (by decide) s o.key
  have h6 := count_ite_ne (o.enableArchivista = true) "--enable-archivista=true"
    ("-s=" ++ s) (append_ne_lit "-s=" "--enable-archivista=true" (by decide) s)
  have h7 := count_ite_ne (o.enableSigstore = true) "--enable-sigstore=true"
    ("-s=" ++ s) (append_ne_lit "-s=" "--enable-sigstore=true" (by decide) s)
  have h8 := count_optFlag_ne "-s=" "--archivista-server=" (by decide) s
    o.archivistaServer
  have h9 := count_optFlag_ne "-s=" "--signer-fulcio-url=" (by decide) s
    o.fulcioUrl
  have h10 := count_optFlag_ne "-s=" "--signer-fulcio-oidc-issuer=" (by decide) s
    o.fulcioOidcIssuer
  have h11 := count_optFlag_ne "-s=" "--timestamp-servers=" (by decide) s
    o.timestampServers
  rw [h1, h2, h3, h4, h5, h6, h7, h8, h9, h10, h11]

/-- When the step field holds the non-empty value `s`, the step token is
a member of the option region. -/
theorem step_tok_mem (o : WitnessOptions) (s : String)
    (hv : o.step = some s) (hs : s ≠ "") :
    ("-s=" ++ s) ∈ optionTokens o := by
  unfold optionTokens
  rw [hv]
  simp [optFlag, hs]

/-- C3 counterexample: with step `build` and a payload that itself
contains the token `-s=build`, the output does not contain exactly one
element equal to the rendered step flag — the payload repeats it. -/
theorem assembleWitnessArgs_step_flag_cex :
    ¬ ((assembleWitnessArgs { step := some "build" }
          [some "-s=build"]).count ("-s=" ++ "build") = 1) := by decide

/-- C3 (amended): restricted to the region before the first separator
occurrence (the option region), an absent, undefined, or empty optional
field — step, outfile, key, or any extension field — produces no token
matching that field's flag pattern; and for a non-empty step value `s`
the region holds exactly one element equal to the rendered step flag,
whose index is strictly below the separator's index. -/
theorem assembleWitnessArgs_flag_region
    (o : WitnessOptions) (cmd : List (Option String)) :
    ((o.step = none ∨ o.step = some "") →
      ∀ e ∈ (assembleWitnessArgs o cmd).take
          ((assembleWitnessArgs o cmd).indexOf "--"), hasFlag "-s=" e = false)
    ∧ ((o.outfile = none ∨ o.outfile = some "") →
      ∀ e ∈ (assembleWitnessArgs o cmd).take
          ((assembleWitnessArgs o cmd).indexOf "--"), hasFlag "-o=" e = false)
    ∧ ((o.key = none ∨ o.key = some "") →
      ∀ e ∈ (assembleWitnessArgs o cmd).take
          ((assembleWitnessArgs o cmd).indexOf "--"),
        hasFlag "--signer-file-key-path=" e = false)
    ∧ ((o.archivistaServer = none ∨ o.archivistaServer = some "") →
      ∀ e ∈ (assembleWitnessArgs o cmd).take
          ((assembleWitnessArgs o cmd).indexOf "--"),
        hasFlag "--archivista-server=" e = false)
    ∧ ((o.fulcioUrl = none ∨ o.fulcioUrl = some "") →
      ∀ e ∈ (assembleWitnessArgs o cmd).take
          ((assembleWitnessArgs o cmd).indexOf "--"),
        hasFlag "--signer-fulcio-url=" e = false)
    ∧ ((o.fulcioOidcIssuer = none ∨ o.fulcioOidcIssuer = some "") →
      ∀ e ∈ (assembleWitnessArgs o cmd).take
          ((assembleWitnessArgs o cmd).indexOf "--"),
        hasFlag "--signer-fulcio-oidc-issuer=" e = false)
    ∧ ((o.timestampServers = none ∨ o.timestampServers = some "") →
      ∀ e ∈ (assembleWitnessArgs o cmd).take
          ((assembleWitnessArgs o cmd).indexOf "--"),
        hasFlag "--timestamp-servers=" e = false)
    ∧ (∀ s, o.step = some s → s ≠ "" →
        ((assembleWitnessArgs o cmd).take
            ((assembleWitnessArgs o cmd).indexOf "--")).count ("-s=" ++ s) = 1
        ∧ (assembleWitnessArgs o cmd).indexOf ("-s=" ++ s)
            < (assembleWitnessArgs o cmd).indexOf "--") := by
  rw [sep_region o cmd]
  refine ⟨region_no_step o, region_no_outfile o, region_no_key o,
    region_no_archivista_server o, region_no_fulcio_url o,
    region_no_fulcio_oidc o, region_no_timestamp o, ?_⟩
  intro s hv hs
  refine ⟨optionTokens_step_count o s hv hs, ?_⟩
  rw [sep_indexOf, assemble_eq_cons,
    List.indexOf_append_of_mem (step_tok_mem o s hv hs)]
  exact List.indexOf_lt_length.mpr (step_tok_mem o s hv hs)

/-- C3 witness: the amended region theorem applied at concrete inputs —
an options object with no step produces no step-flag token in the option
region, and step `build` yields exactly one `-s=build` before the
separator. -/
theorem assembleWitnessArgs_flag_region_witness :
    (∀ e ∈ (assembleWitnessArgs {} [some "echo"]).take
        ((assembleWitnessArgs {} [some "echo"]).indexOf "--"),
      hasFlag "-s=" e = false)
    ∧ ((assembleWitnessArgs { step := some "build" } [some "echo"]).take
        ((assembleWitnessArgs { step := some "build" }
          [some "echo"]).indexOf "--")).count ("-s=" ++ "build") = 1
    ∧ (assembleWitnessArgs { step := some "build" }
        [some "echo"]).indexOf ("-s=" ++ "build")
        < (assembleWitnessArgs { step := some "build" }
            [some "echo"]).indexOf "--" :=
  ⟨(assembleWitnessArgs_flag_region {} [some "echo"]).1 (Or.inl rfl),
   ((assembleWitnessArgs_flag_region { step := some "build" }
      [some "echo"]).2.2.2.2.2.2.2 "build" rfl (by decide)).1,
   ((assembleWitnessArgs_flag_region { step := some "build" }
      [some "echo"]).2.2.2.2.2.2.2 "build" rfl (by decide)).2⟩

/-- C7: getLatestVersion is total and never propagates an error — on a
successful fetch it returns the tag with a leading `v` stripped when
present (unchanged otherwise), and on a network error or a non-ok
response it returns the hardcoded last-known-good string `0.10.1`. -/
theorem getLatestVersion_spec :
    (∀ msg, getLatestVersion (.netError msg) = "0.10.1")
    ∧ (∀ st tag, getLatestVersion (.response false st tag) = "0.10.1")
    ∧ (∀ st tag, getLatestVersion (.response true st tag)
        = if jsStartsWith tag "v" then jsSlice tag 1 else tag) :=
  ⟨fun _ => rfl, fun _ _ => rfl, fun _ _ => rfl⟩

/-- C8: checkWitnessInPath never propagates an error — it returns the
trimmed `which` output exactly when the exit code is 0 and that trimmed
output is non-empty, and returns `none` on a non-zero exit, on empty or
whitespace-only output, and on a thrown error alike. -/
theorem checkWitnessInPath_spec :
    (∀ r : ExecResult, r.exitCode = 0 → jsTrim r.stdout ≠ "" →
        checkWitnessInPath (.ok r) = some (jsTrim r.stdout))
    ∧ (∀ r : ExecResult, r.exitCode ≠ 0 → checkWitnessInPath (.ok r) = none)
    ∧ (∀ r : ExecResult, jsTrim r.stdout = "" → checkWitnessInPath (.ok r) = none)
    ∧ (∀ msg, checkWitnessInPath (.err msg) = none) := by
  refine ⟨?_, ?_, ?_, fun _ => rfl⟩
  · intro r h1 h2
    simp [checkWitnessInPath, h1, h2]
  · intro r h1
    simp [checkWitnessInPath, h1]
  · intro r h1
    simp [checkWitnessInPath, h1]

/-- C8 witness: the spec theorem at a found binary, a failed lookup, and
a thrown error. -/
theorem checkWitnessInPath_spec_witness :
    checkWitnessInPath (.ok ⟨0, "/usr/local/bin/witness\n", ""⟩)
      = some (jsTrim "/usr/local/bin/witness\n")
    ∧ checkWitnessInPath (.ok ⟨1, "", ""⟩) = none
    ∧ checkWitnessInPath (.err "Command failed") = none :=
  ⟨checkWitnessInPath_spec.1 ⟨0, "/usr/local/bin/witness\n", ""⟩ rfl (by decide),
   checkWitnessInPath_spec.2.1 ⟨1, "", ""⟩ (by decide),
   checkWitnessInPath_spec.2.2.2 "Command failed"⟩

/-- The download-stage trace: it contains exactly one download URL — the
canonical one for the requested version — and never a cache lookup or a
metadata fetch. -/
theorem dl_trace_events (env : DownloadEnv) (v : String) :
    (∀ u, Event.download u ∈ (downloadWitnessVersion env v).2
        ↔ u = downloadUrlFor env.platform v)
    ∧ (∀ t v2, Event.cacheFind t v2 ∉ (downloadWitnessVersion env v).2)
    ∧ Event.fetchLatest ∉ (downloadWitnessVersion env v).2 := by
  obtain ⟨pf, ts, dres, eres, chres, cres, rres⟩ := env
  rcases dres with m | dp <;> rcases eres with m2 | ed <;>
    rcases chres with m3 | u3 <;> rcases cres with m4 | cp <;>
    rcases rres with m5 | u5 <;>
    simp [downloadWitnessVersion]

/-- The download stage succeeds exactly when the download, the
extraction, and the cache installation all succeed; the chmod and
cleanup outcomes never affect the result. -/
theorem dl_error_iff (env : DownloadEnv) (v : String) :
    (∃ e, (downloadWitnessVersion env v).1 = .error e)
      ↔ (∃ m, env.downloadResult = .error m)
        ∨ (∃ m, env.extractResult = .error m)
        ∨ (∃ m, env.cacheResult = .error m) := by
  obtain ⟨pf, ts, dres, eres, chres, cres, rres⟩ := env
  rcases dres with m | dp <;> rcases eres with m2 | ed <;>
    rcases chres with m3 | u3 <;> rcases cres with m4 | cp <;>
    rcases rres with m5 | u5 <;>
    simp [downloadWitnessVersion]

/-- C10: a chmod failure never aborts the download stage — the function
logs a warning and still performs the cache installation, and the call
fails exactly when the download, the extraction, or the cache
installation fails. -/
theorem downloadWitnessVersion_chmod_nonfatal (env : DownloadEnv) (v : String) :
    (∀ msg dp ed cp, env.downloadResult = .ok dp → env.extractResult = .ok ed →
        env.chmodResult = .error msg → env.cacheResult = .ok cp →
        (∃ p, (downloadWitnessVersion env v).1 = .ok p)
        ∧ Event.warn ("Failed to make witness executable: " ++ msg)
            ∈ (downloadWitnessVersion env v).2
        ∧ Event.cacheInstall (pathJoin ed "witness") "witness" "witness" v
            ∈ (downloadWitnessVersion env v).2)
    ∧ ((∃ e, (downloadWitnessVersion env v).1 = .error e)
        ↔ (∃ m, env.downloadResult = .error m)
          ∨ (∃ m, env.extractResult = .error m)
          ∨ (∃ m, env.cacheResult = .error m)) := by
  refine ⟨?_, dl_error_iff env v⟩
  intro msg dp ed cp h1 h2 h3 h4
  rcases hr : env.rmResult with m | u <;>
    simp [downloadWitnessVersion, h1, h2, h3, h4, hr]

/-- Environment for the chmod-failure witness: every stage succeeds
except setting the executable bit. -/
def envChmodFail : DownloadEnv :=
  { platform := .linux
    tempSuffix := "abc123"
    downloadResult := .ok "/tmp/witness.tar.gz"
    extractResult := .ok "/tmp/witness-extract-abc123/extracted"
    chmodResult := .error "EACCES"
    cacheResult := .ok "/opt/hostedtoolcache/witness/0.10.1/x64"
    rmResult := .ok () }

/-- C10 witness: with a concrete chmod failure the call still succeeds,
warns, and installs into the cache. -/
theorem downloadWitnessVersion_chmod_nonfatal_witness :
    (∃ p, (downloadWitnessVersion envChmodFail "0.10.1").1 = .ok p)
    ∧ Event.warn ("Failed to make witness executable: " ++ "EACCES")
        ∈ (downloadWitnessVersion envChmodFail "0.10.1").2
    ∧ Event.cacheInstall (pathJoin "/tmp/witness-extract-abc123/extracted" "witness")
        "witness" "witness" "0.10.1"
        ∈ (downloadWitnessVersion envChmodFail "0.10.1").2 :=
  (downloadWitnessVersion_chmod_nonfatal envChmodFail "0.10.1").1
    "EACCES" "/tmp/witness.tar.gz" "/tmp/witness-extract-abc123/extracted"
    "/opt/hostedtoolcache/witness/0.10.1/x64" rfl rfl rfl rfl

/-- Environment for the C9 counterexample: the download succeeds and the
extraction fails. -/
def envExtractFail : DownloadEnv :=
  { platform := .linux
    tempSuffix := "abc123"
    downloadResult := .ok "/tmp/witness.tar.gz"
    extractResult := .error "unexpected EOF"
    chmodResult := .ok ()
    cacheResult := .ok "/opt/hostedtoolcache/witness/0.10.1/x64"
    rmResult := .ok () }

/-- C9 counterexample: when the extraction stage fails, the call
terminates with the extraction error while the temporary directory it
created is never removed — there is no cleanup on the failure paths. -/
theorem downloadWitnessVersion_cleanup_cex :
    Event.mkdirTemp "/tmp/witness-extract-abc123"
        ∈ (downloadWitnessVersion envExtractFail "0.10.1").2
    ∧ (∀ d, Event.rmTemp d ∉ (downloadWitnessVersion envExtractFail "0.10.1").2)
    ∧ (downloadWitnessVersion envExtractFail "0.10.1").1
        = .error "Failed to extract witness archive: unexpected EOF" := by
  refine ⟨by decide, ?_, by decide⟩
  intro d hd
  simp [downloadWitnessVersion, envExtractFail] at hd

/-- C9 (amended): the temporary extraction directory is removed on the
success path only — whenever the download, extraction, and cache
installation all succeed, the removal is attempted before the call
returns, its failure is only logged as a warning and never escalated,
and the call still succeeds. -/
theorem downloadWitnessVersion_cleanup (env : DownloadEnv) (v : String)
    (dp ed cp : String)
    (h1 : env.downloadResult = .ok dp) (h2 : env.extractResult = .ok ed)
    (h3 : env.cacheResult = .ok cp) :
    Event.rmTemp (tempDirOf env) ∈ (downloadWitnessVersion env v).2
    ∧ (∃ p, (downloadWitnessVersion env v).1 = .ok p)
    ∧ (∀ m, env.rmResult = .error m →
        Event.warn ("Failed to clean up temporary directory: " ++ m)
          ∈ (downloadWitnessVersion env v).2) := by
  rcases hch : env.chmodResult with m3 | u3 <;>
    rcases hr : env.rmResult with m5 | u5 <;>
    simp [downloadWitnessVersion, h1, h2, h3, hch, hr]

/-- Environment for the C9 witness: all stages succeed but the cleanup
removal itself fails. -/
def envCleanupFail : DownloadEnv :=
  { platform := .linux
    tempSuffix := "abc123"
    downloadResult := .ok "/tmp/witness.tar.gz"
    extractResult := .ok "/tmp/witness-extract-abc123/extracted"
    chmodResult := .ok ()
    cacheResult := .ok "/opt/hostedtoolcache/witness/0.10.1/x64"
    rmResult := .error "EPERM" }

/-- C9 witness: on a concrete success-path environment whose removal
fails, the removal is attempted, the failure is logged, and the call
still succeeds. -/
theorem downloadWitnessVersion_cleanup_witness :
    Event.rmTemp (tempDirOf envCleanupFail)
        ∈ (downloadWitnessVersion envCleanupFail "0.10.1").2
    ∧ (∃ p, (downloadWitnessVersion envCleanupFail "0.10.1").1 = .ok p)
    ∧ Event.warn ("Failed to clean up temporary directory: " ++ "EPERM")
        ∈ (downloadWitnessVersion envCleanupFail "0.10.1").2 :=
  ⟨(downloadWitnessVersion_cleanup envCleanupFail "0.10.1"
      "/tmp/witness.tar.gz" "/tmp/witness-extract-abc123/extracted"
      "/opt/hostedtoolcache/witness/0.10.1/x64" rfl rfl rfl).1,
   (downloadWitnessVersion_cleanup envCleanupFail "0.10.1"
      "/tmp/witness.tar.gz" "/tmp/witness-extract-abc123/extracted"
      "/opt/hostedtoolcache/witness/0.10.1/x64" rfl rfl rfl).2.1,
   (downloadWitnessVersion_cleanup envCleanupFail "0.10.1"
      "/tmp/witness.tar.gz" "/tmp/witness-extract-abc123/extracted"
      "/opt/hostedtoolcache/witness/0.10.1/x64" rfl rfl rfl).2.2 "EPERM" rfl⟩

/-- C4: when the system-PATH probe finds the binary (exit 0 with
non-empty trimmed output), getWitnessPath returns exactly the probed
path and performs no cache lookup, no latest-version metadata fetch,
and no download. -/
theorem getWitnessPath_path_hit (env : ResolverEnv) (r : ExecResult)
    (hw : env.which = .ok r) (hexit : r.exitCode = 0)
    (hout : jsTrim r.stdout ≠ "") :
    (getWitnessPath env).1 = .ok (jsTrim r.stdout)
    ∧ (∀ t v, Event.cacheFind t v ∉ (getWitnessPath env).2)
    ∧ Event.fetchLatest ∉ (getWitnessPath env).2
    ∧ (∀ u, Event.download u ∉ (getWitnessPath env).2) := by
  have hc : checkWitnessInPath env.which = some (jsTrim r.stdout) := by
    rw [hw]
    simp [checkWitnessInPath, hexit, hout]
  simp [getWitnessPath, hc]

/-- Environment for the C4 witness: the probe finds the binary while
every later stage is set up to fail if it were (wrongly) reached. -/
def envPathHit : ResolverEnv :=
  { which := .ok ⟨0, "/usr/local/bin/witness\n", ""⟩
    inputVersion := ""
    fetch := .netError "offline"
    cacheFind := fun _ => ""
    dl :=
      { platform := .linux
        tempSuffix := "x"
        downloadResult := .error "unreachable"
        extractResult := .error "unreachable"
        chmodResult := .ok ()
        cacheResult := .error "unreachable"
        rmResult := .ok () } }

/-- C4 witness: the PATH-hit theorem at a concrete probe result. -/
theorem getWitnessPath_path_hit_witness :
    (getWitnessPath envPathHit).1 = .ok (jsTrim "/usr/local/bin/witness\n")
    ∧ Event.fetchLatest ∉ (getWitnessPath envPathHit).2 :=
  ⟨(getWitnessPath_path_hit envPathHit ⟨0, "/usr/local/bin/witness\n", ""⟩
      rfl rfl (by decide)).1,
   (getWitnessPath_path_hit envPathHit ⟨0, "/usr/local/bin/witness\n", ""⟩
      rfl rfl (by decide)).2.2.1⟩

/-- Shape of getWitnessPath after a PATH miss: a cache hit returns the
joined cache path with its trace, and a cache miss delegates to the
download stage. -/
theorem getWitnessPath_miss_trace (env : ResolverEnv)
    (hmiss : checkWitnessInPath env.which = none) :
    (env.cacheFind (resolvedVersion env) ≠ "" →
      getWitnessPath env
        = (.ok (pathJoin (env.cacheFind (resolvedVersion env)) "witness"),
           .execWhich :: (if env.inputVersion = "" then [Event.fetchLatest] else [])
             ++ [.cacheFind "witness" (resolvedVersion env),
                 .addPath (env.cacheFind (resolvedVersion env))]))
    ∧ (env.cacheFind (resolvedVersion env) = "" →
      getWitnessPath env
        = ((downloadWitnessVersion env.dl (resolvedVersion env)).1,
           .execWhich :: (if env.inputVersion = "" then [Event.fetchLatest] else [])
             ++ [.cacheFind "witness" (resolvedVersion env)]
             ++ (downloadWitnessVersion env.dl (resolvedVersion env)).2)) := by
  constructor <;> intro hc <;> simp [getWitnessPath, hmiss, hc]

/-- C5: after a PATH miss the version used for the cache lookup and the
download is the `witness_version` input when non-empty and otherwise the
latest-version fetch result; an explicitly requested `0.9.0` that is not
cached is downloaded from a URL containing `v0.9.0`; and with no
requested version and a fetched tag `v0.10.1` the resolved version is
`0.10.1` and no download URL references the legacy `0.8.1` fallback. -/
theorem getWitnessPath_version_selection (env : ResolverEnv)
    (hmiss : checkWitnessInPath env.which = none) :
    (env.inputVersion ≠ "" → resolvedVersion env = env.inputVersion)
    ∧ (env.inputVersion = "" → resolvedVersion env = getLatestVersion env.fetch)
    ∧ (∀ t v, Event.cacheFind t v ∈ (getWitnessPath env).2 →
        v = resolvedVersion env)
    ∧ (∀ u, Event.download u ∈ (getWitnessPath env).2 →
        u = downloadUrlFor env.dl.platform (resolvedVersion env))
    ∧ (env.inputVersion = "0.9.0" → env.cacheFind "0.9.0" = "" →
        ∃ u, Event.download u ∈ (getWitnessPath env).2
          ∧ containsStr u "v0.9.0" = true)
    ∧ (∀ st, env.inputVersion = "" → env.fetch = .response true st "v0.10.1" →
        resolvedVersion env = "0.10.1"
        ∧ ∀ u, Event.download u ∈ (getWitnessPath env).2 →
            containsStr u "0.8.1" = false) := by
  obtain ⟨hthen, helse⟩ := getWitnessPath_miss_trace env hmiss
  have hdl : ∀ u, Event.download u ∈ (getWitnessPath env).2 →
      u = downloadUrlFor env.dl.platform (resolvedVersion env) := by
    intro u hm
    by_cases hc : env.cacheFind (resolvedVersion env) = ""
    · rw [helse hc] at hm
      by_cases hv : env.inputVersion = "" <;> simp [hv] at hm <;>
        exact ((dl_trace_events env.dl (resolvedVersion env)).1 u).mp hm
    · rw [hthen hc] at hm
      by_cases hv : env.inputVersion = "" <;> simp [hv] at hm
  refine ⟨fun hne => by simp [resolvedVersion, hne],
    fun he => by simp [resolvedVersion, he], ?_, hdl, ?_, ?_⟩
  · intro t v hm
    by_cases hc : env.cacheFind (resolvedVersion env) = ""
    · rw [helse hc] at hm
      by_cases hv : env.inputVersion = "" <;> simp [hv] at hm <;>
        rcases hm with ⟨_, h⟩ | hm
      · exact h
      · exact absurd hm ((dl_trace_events env.dl (resolvedVersion env)).2.1 t v)
      · exact h
      · exact absurd hm ((dl_trace_events env.dl (resolvedVersion env)).2.1 t v)
    · rw [hthen hc] at hm
      by_cases hv : env.inputVersion = "" <;> simp [hv] at hm <;> exact hm.2
  · intro hin hcache
    have hrv : resolvedVersion env = "0.9.0" := by
      simp [resolvedVersion, hin]
    have hc : env.cacheFind (resolvedVersion env) = "" := by
      rw [hrv]; exact hcache
    refine ⟨downloadUrlFor env.dl.platform (resolvedVersion env), ?_, ?_⟩
    · rw [helse hc]
      have hd := ((dl_trace_events env.dl (resolvedVersion env)).1 _).mpr rfl
      simp only [List.cons_append, List.mem_cons, List.mem_append]
      tauto
    · rw [hrv]
      cases hp : env.dl.platform <;> decide
  · intro st hin hf
    have h1 : getLatestVersion env.fetch = "0.10.1" := by
      rw [hf]; rfl
    have hrv : resolvedVersion env = "0.10.1" := by
      simp [resolvedVersion, hin, h1]
    refine ⟨hrv, ?_⟩
    intro u hm
    rw [hdl u hm, hrv]
    cases hp : env.dl.platform <;> decide

/-- Environment for the C5 witness: PATH miss, explicit version `0.9.0`
requested, cache empty, download succeeds. -/
def envExplicitMiss : ResolverEnv :=
  { which := .ok ⟨1, "", ""⟩
    inputVersion := "0.9.0"
    fetch := .netError "offline"
    cacheFind := fun _ => ""
    dl :=
      { platform := .linux
        tempSuffix := "x"
        downloadResult := .ok "/tmp/witness.tar.gz"
        extractResult := .ok "/tmp/witness-extract-x/extracted"
        chmodResult := .ok ()
        cacheResult := .ok "/opt/hostedtoolcache/witness/0.9.0/x64"
        rmResult := .ok () } }

/-- C5 witness: the version-selection theorem at a concrete environment
with an explicit `0.9.0` request and an empty cache. -/
theorem getWitnessPath_version_selection_witness :
    resolvedVersion envExplicitMiss = envExplicitMiss.inputVersion
    ∧ ∃ u, Event.download u ∈ (getWitnessPath envExplicitMiss).2
        ∧ containsStr u "v0.9.0" = true :=
  ⟨(getWitnessPath_version_selection envExplicitMiss (by decide)).1 (by decide),
   (getWitnessPath_version_selection envExplicitMiss
      (by decide)).2.2.2.2.1 rfl rfl⟩

/-- C6: after a PATH miss, a tool-cache hit for the chosen version means
no download occurs, the returned path is the cache directory joined with
the binary name, and the cache directory is added to PATH for later
lookups. -/
theorem getWitnessPath_cache_hit (env : ResolverEnv)
    (hmiss : checkWitnessInPath env.which = none)
    (hhit : env.cacheFind (resolvedVersion env) ≠ "") :
    (∀ u, Event.download u ∉ (getWitnessPath env).2)
    ∧ (getWitnessPath env).1
        = .ok (pathJoin (env.cacheFind (resolvedVersion env)) "witness")
    ∧ Event.addPath (env.cacheFind (resolvedVersion env))
        ∈ (getWitnessPath env).2 := by
  obtain ⟨hthen, _⟩ := getWitnessPath_miss_trace env hmiss
  rw [hthen hhit]
  refine ⟨?_, rfl, ?_⟩
  · intro u hm
    by_cases hv : env.inputVersion = "" <;> simp [hv] at hm
  · by_cases hv : env.inputVersion = "" <;> simp [hv]

/-- Environment for the C6 witness: PATH miss, explicit version
`0.10.1` requested and present in the tool cache. -/
def envCacheHit : ResolverEnv :=
  { which := .ok ⟨1, "", ""⟩
    inputVersion := "0.10.1"
    fetch := .netError "offline"
    cacheFind := fun v =>
      if v = "0.10.1" then "/opt/hostedtoolcache/witness/0.10.1/x64" else ""
    dl :=
      { platform := .linux
        tempSuffix := "x"
        downloadResult := .error "unreachable"
        extractResult := .error "unreachable"
        chmodResult := .ok ()
        cacheResult := .error "unreachable"
        rmResult := .ok () } }

/-- C6 witness: the cache-hit theorem at a concrete cached environment. -/
theorem getWitnessPath_cache_hit_witness :
    (getWitnessPath envCacheHit).1
      = .ok (pathJoin (envCacheHit.cacheFind (resolvedVersion envCacheHit)) "witness")
    ∧ Event.addPath (envCacheHit.cacheFind (resolvedVersion envCacheHit))
        ∈ (getWitnessPath envCacheHit).2 :=
  ⟨(getWitnessPath_cache_hit envCacheHit (by decide) (by decide)).2.1,
   (getWitnessPath_cache_hit envCacheHit (by decide) (by decide)).2.2⟩
